import Mathlib

/-!
Verification of the evidence-bot query classification and routing engine.

The JavaScript sources are embedded shallowly: pure functions become Lean
functions on `String`/`List`/`Int`, JS runtime values that matter to the
routes become small inductive types, and every network-bound collaborator
call (axios, csv-parser streams, the generative model) is an explicit
oracle argument returning `Except String α` for a call that can throw.
JS `Number` values reaching the modelled code are integers (counts, ids,
epoch milliseconds), so they are embedded as `Int`/`Nat`; the classifier's
`confidence` literals (0.5, 0.7, 0.8) are exact binary/decimal fractions
and are embedded as `ℚ`.
-/

namespace EvidenceBot

/-! ## JS string primitives

`jsIncludes` models `String.prototype.includes`, `jsToLower` models
`String.prototype.toLowerCase` (the queries handled here are ASCII; no
Unicode character lowercases to an ASCII capital, so `Char.toLower` is
faithful for every fact proved below), and `jsJoin` models
`Array.prototype.join`. -/

def isInfixL (needle : List Char) : List Char → Bool
  | [] => needle.isEmpty
  | c :: rest => needle.isPrefixOf (c :: rest) || isInfixL needle rest

def jsIncludes (s sub : String) : Bool :=
  isInfixL sub.data s.data

def jsToLower (s : String) : String :=
  String.mk (s.data.map Char.toLower)

def jsJoin (sep : String) : List String → String
  | [] => ""
  | [x] => x
  | x :: y :: rest => x ++ sep ++ jsJoin sep (y :: rest)

def jsTruthyStr : Option String → Bool
  | some s => !(s == "")
  | none => false

/-! ## JS runtime values

`JsVal` embeds the dynamically-typed values that flow through the route
layer and the fallback summary: JSON-ish data.  `typeof null` is
`"object"` in JS; `Object.keys(null)` would throw, but no router branch
produces a bare `null` evidence value, so `fallbackSummary` below sends
`nullV` to its generic branch. -/

inductive JsVal where
  | str (s : String)
  | num (n : Int)
  | boolV (b : Bool)
  | nullV
  | undef
  | arr (items : List JsVal)
  | obj (fields : List (String × JsVal))

def jsTypeof : JsVal → String
  | .str _ => "string"
  | .num _ => "number"
  | .boolV _ => "boolean"
  | .undef => "undefined"
  | .nullV => "object"
  | .arr _ => "object"
  | .obj _ => "object"

def jsFalsy : JsVal → Bool
  | .str s => s == ""
  | .num n => n == 0
  | .boolV b => !b
  | .nullV => true
  | .undef => true
  | .arr _ => false
  | .obj _ => false

def asString : JsVal → String
  | .str s => s
  | _ => ""

/-! ## Parameter extraction (aiService.js)

The fallback classifier's regexes are embedded as explicit scanners with
JS leftmost-match semantics: try a match at each start position from the
left, alternatives in order, greedy repetition (the character classes
adjacent to each greedy star are disjoint from what follows, except for
the `[\s\w]*` in the access-pattern, which gets explicit
longest-first backtracking). -/

/-- `\w` character class: `[A-Za-z0-9_]`. -/
def wordChar (c : Char) : Bool := c.isAlphanum || c == '_'

/-- `[\s:]` character class. -/
def spaceColon (c : Char) : Bool := c.isWhitespace || c == ':'

/-- `[\s#]` character class. -/
def spaceHash (c : Char) : Bool := c.isWhitespace || c == '#'

/-- `[\s\w]` character class. -/
def spaceWord (c : Char) : Bool := c.isWhitespace || wordChar c

/-- `[\w-]` character class. -/
def wordDash (c : Char) : Bool := wordChar c || c == '-'

/-- Case-insensitive literal match (the `i` regex flag): strips `pat`
from the front of the input, returning the remainder. -/
def ciStrip : List Char → List Char → Option (List Char)
  | [], l => some l
  | _ :: _, [] => none
  | p :: ps, c :: cs => if c.toLower == p.toLower then ciStrip ps cs else none

/-- One attempt of `([A-Z]+)-([0-9]+)` anchored at the head of `l`. -/
def matchKeyAt (l : List Char) : Option String :=
  let us := l.takeWhile Char.isUpper
  if us.isEmpty then none
  else
    match l.dropWhile Char.isUpper with
    | '-' :: r2 =>
      let ds := r2.takeWhile Char.isDigit
      if ds.isEmpty then none else some (String.mk (us ++ '-' :: ds))
    | _ => none

/-- Leftmost match of `([A-Z]+)-([0-9]+)` (the whole match, `match[0]`). -/
def findKey : List Char → Option String
  | [] => none
  | c :: rest =>
    match matchKeyAt (c :: rest) with
    | some m => some m
    | none => findKey rest

/-- One attempt of `user[\s:]*([\w]+)|access[\s\w]*to[\s]*([\w]+)` (with
`i` flag) at the head of `l`; returns `match[1] || match[2]`. -/
def matchUserAt (l : List Char) : Option String :=
  match ciStrip "user".data l with
  | some r1 =>
    let w := (r1.dropWhile spaceColon).takeWhile wordChar
    if w.isEmpty then none else some (String.mk w)
  | none =>
    match ciStrip "access".data l with
    | some r1 => accessTail (r1.takeWhile spaceWord).length r1
    | none => none
where
  /-- Greedy `[\s\w]*` with backtracking: try the longest eaten prefix
  first, then shorter ones, looking for `to[\s]*([\w]+)`. -/
  accessTail : Nat → List Char → Option String
    | k, r1 =>
      let attempt :=
        match ciStrip "to".data (r1.drop k) with
        | some r3 =>
          let w := (r3.dropWhile Char.isWhitespace).takeWhile wordChar
          if w.isEmpty then none else some (String.mk w)
        | none => none
      match attempt with
      | some w => some w
      | none => match k with
        | 0 => none
        | k' + 1 => accessTail k' r1

def findUserTok : List Char → Option String
  | [] => none
  | c :: rest =>
    match matchUserAt (c :: rest) with
    | some u => some u
    | none => findUserTok rest

/-- One attempt of `pr[\s#]*([0-9]+)|pull request[\s#]*([0-9]+)` (with
`i` flag) at the head of `l`; returns `match[1] || match[2]`. -/
def matchPrAt (l : List Char) : Option String :=
  let digitsAfter : List Char → Option String := fun r =>
    let ds := (r.dropWhile spaceHash).takeWhile Char.isDigit
    if ds.isEmpty then none else some (String.mk ds)
  match ciStrip "pr".data l with
  | some r1 =>
    match digitsAfter r1 with
    | some d => some d
    | none => altPull l digitsAfter
  | none => altPull l digitsAfter
where
  altPull (l : List Char) (digitsAfter : List Char → Option String) : Option String :=
    match ciStrip "pull request".data l with
    | some r1 => digitsAfter r1
    | none => none

def findPrNum : List Char → Option String
  | [] => none
  | c :: rest =>
    match matchPrAt (c :: rest) with
    | some m => some m
    | none => findPrNum rest

/-- `([\w-]+\/[\w-]+)` anchored at the head of `r`. -/
def ownerRepoAt (r : List Char) : Option String :=
  let a := r.takeWhile wordDash
  if a.isEmpty then none
  else
    match r.dropWhile wordDash with
    | '/' :: r2 =>
      let b := r2.takeWhile wordDash
      if b.isEmpty then none else some (String.mk (a ++ '/' :: b))
    | _ => none

/-- One attempt of
`repo[\s:]*([\w-]+\/[\w-]+)|repository[\s:]*([\w-]+\/[\w-]+)` at the
head of `l`. -/
def matchRepoAt (l : List Char) : Option String :=
  let tryAfter : List Char → Option String := fun r1 =>
    ownerRepoAt (r1.dropWhile spaceColon)
  let alt1 :=
    match ciStrip "repo".data l with
    | some r1 => tryAfter r1
    | none => none
  match alt1 with
  | some m => some m
  | none =>
    match ciStrip "repository".data l with
    | some r1 => tryAfter r1
    | none => none

def findRepoTok : List Char → Option String
  | [] => none
  | c :: rest =>
    match matchRepoAt (c :: rest) with
    | some m => some m
    | none => findRepoTok rest

/-! ## The classifier (aiService.js: fallbackAnalysis and friends) -/

/-- The classifier's parameter bag.  Unset fields are absent (`none`),
mirroring absent JS object properties. -/
structure Params where
  prNumber : Option String := none
  issueKey : Option String := none
  repository : Option String := none
  fileName : Option String := none
  user : Option String := none
  dateRange : Option String := none
  fileType : Option String := none
  exportFormat : Option String := none
  project : Option String := none
  status : Option String := none
  assignee : Option String := none
  text : Option String := none

structure Analysis where
  queryType : String
  intent : String
  parameters : Params
  source : String
  action : String
  confidence : ℚ

def extractGitHubParams (query : String) : Params :=
  { prNumber := findPrNum query.data
    repository := findRepoTok query.data }

def extractJiraParams (query : String) : Params :=
  { issueKey := findKey query.data
    user := findUserTok query.data }

def extractDocumentParams (query : String) : Params :=
  { fileType :=
      if jsIncludes query "excel" || jsIncludes query "xlsx" then some "excel"
      else if jsIncludes query "csv" then some "csv"
      else none
    exportFormat :=
      if jsIncludes query "export" then
        if jsIncludes query "excel" || jsIncludes query "xlsx" then some "excel"
        else if jsIncludes query "csv" then some "csv"
        else none
      else none }

def fallbackAnalysis (userQuery : String) : Analysis :=
  let query := jsToLower userQuery
  if jsIncludes query "pr" || jsIncludes query "pull request" ||
     jsIncludes query "github" || jsIncludes query "merge" then
    { queryType := "github"
      intent := "Query GitHub repository information"
      parameters := extractGitHubParams query
      source := "github"
      action := "fetch_github_data"
      confidence := 0.7 }
  else if jsIncludes query "jira" || jsIncludes query "ticket" ||
          jsIncludes query "issue" || jsIncludes query "access" then
    { queryType := "jira"
      intent := "Query JIRA ticket information"
      parameters := extractJiraParams query
      source := "jira"
      action := "fetch_jira_data"
      confidence := 0.7 }
  else if jsIncludes query "csv" || jsIncludes query "excel" ||
          jsIncludes query "file" || jsIncludes query "document" then
    { queryType := "document"
      intent := "Analyze document data"
      parameters := extractDocumentParams query
      source := "document"
      action := "analyze_document"
      confidence := 0.8 }
  else
    { queryType := "general"
      intent := "General query requiring multiple sources"
      parameters := {}
      source := "multiple"
      action := "multi_source_search"
      confidence := 0.5 }

/-- The summary fallback (aiService.js: fallbackSummary). -/
def fallbackSummary (data : JsVal) (queryIntent : String) : String :=
  match data with
  | .arr items =>
    "Found " ++ toString items.length ++ " items matching your query: \"" ++
      queryIntent ++ "\". Data has been retrieved and is ready for export."
  | .obj fields =>
    "Retrieved evidence with " ++ toString fields.length ++ " data points: " ++
      jsJoin ", " (fields.map Prod.fst) ++ ". Query: \"" ++ queryIntent ++ "\""
  | _ =>
    "Evidence retrieved for query: \"" ++ queryIntent ++ "\". Data is available for review."

/-! ## The source-control adapter (githubService.js)

The axios responses are the collaborator boundary: a raw pull-request
payload (`RawPR`, `RawDetail`) and its review payloads arrive from
outside; the adapter's pure projection and aggregation logic is embedded
below.  A per-record review sub-request can fail, which the list fetch
absorbs locally (`Except` input to `enrichPR`). -/

structure Review where
  id : Nat
  user : String
  state : String
  submitted_at : String
  body : String

/-- Fields of the raw list-fetch payload the adapter consumes
(`pr.user?.login` may be absent, `pr.merged` may be absent). -/
structure RawPR where
  number : Nat
  title : String
  state : String
  user : Option String
  created_at : String
  updated_at : String
  merged_at : Option String
  html_url : String
  base : String
  head : String
  draft : Bool
  merged : Option Bool

/-- A list-fetch record after enrichment with its reviews. -/
structure PRRecord where
  number : Nat
  title : String
  state : String
  user : String
  created_at : String
  updated_at : String
  merged_at : Option String
  url : String
  base : String
  head : String
  draft : Bool
  merged : Bool
  reviews : List Review
  approvals : Nat
  request_changes : Nat

/-- One record of `getPullRequests`: the raw record joined with the
outcome of its review sub-request.  A failed sub-request degrades the
record to zero known reviews (the `catch (reviewError)` branch). -/
def enrichPR (pr : RawPR) (fetchedReviews : Except String (List Review)) : PRRecord :=
  match fetchedReviews with
  | .ok reviews =>
    { number := pr.number
      title := pr.title
      state := pr.state
      user := pr.user.getD "unknown"
      created_at := pr.created_at
      updated_at := pr.updated_at
      merged_at := pr.merged_at
      url := pr.html_url
      base := pr.base
      head := pr.head
      draft := pr.draft
      merged := pr.merged.getD false
      reviews := reviews
      approvals := (reviews.filter (fun r => r.state == "APPROVED")).length
      request_changes := (reviews.filter (fun r => r.state == "CHANGES_REQUESTED")).length }
  | .error _ =>
    { number := pr.number
      title := pr.title
      state := pr.state
      user := pr.user.getD "unknown"
      created_at := pr.created_at
      updated_at := pr.updated_at
      merged_at := pr.merged_at
      url := pr.html_url
      base := pr.base
      head := pr.head
      draft := pr.draft
      merged := pr.merged.getD false
      reviews := []
      approvals := 0
      request_changes := 0 }

/-- `getPullRequests` on an already-fetched page: `prs.slice(0, limit)`
then per-record enrichment. -/
def getPullRequests (limit : Nat)
    (fetched : List (RawPR × Except String (List Review))) : List PRRecord :=
  (fetched.take limit).map (fun p => enrichPR p.1 p.2)

/-- Projection applied to each filtered record in
`getPRsMergedWithoutApproval`. -/
structure AggregatePR where
  pr_id : Nat
  title : String
  merged_by : String
  reviews : List Review
  merged_at : Option String
  url : String

structure AggregatePRs where
  count : Nat
  prs : List AggregatePR

def mergedPRProjection (pr : PRRecord) : AggregatePR :=
  { pr_id := pr.number
    title := pr.title
    merged_by := pr.user
    reviews := pr.reviews
    merged_at := pr.merged_at
    url := pr.url }

/-- Use case 1 (`getPRsMergedWithoutApproval`), applied to the enriched
closed-state fetch result. -/
def getPRsMergedWithoutApproval (closedPRs : List PRRecord) : AggregatePRs :=
  let mergedPRsWithoutApproval := closedPRs.filter (fun pr => pr.merged && pr.approvals == 0)
  { count := mergedPRsWithoutApproval.length
    prs := mergedPRsWithoutApproval.map mergedPRProjection }

/-- Fields of the raw single-fetch payload the adapter consumes. -/
structure RawDetail where
  number : Nat
  title : String
  body : String
  state : String
  user : String
  created_at : String
  updated_at : String
  merged_at : Option String
  closed_at : Option String
  base : String
  head : String
  html_url : String
  mergeable : Option Bool
  merged : Bool
  draft : Bool
  additions : Nat
  deletions : Nat
  changed_files : Nat

structure PRDetail where
  number : Nat
  title : String
  body : String
  state : String
  user : String
  created_at : String
  updated_at : String
  merged_at : Option String
  closed_at : Option String
  base : String
  head : String
  url : String
  mergeable : Option Bool
  merged : Bool
  draft : Bool
  additions : Nat
  deletions : Nat
  changed_files : Nat
  reviews : List Review
  approvals : Nat
  request_changes : Nat

/-- The pure projection of `getPullRequest` over its two axios payloads. -/
def getPullRequest (pr : RawDetail) (reviews : List Review) : PRDetail :=
  { number := pr.number
    title := pr.title
    body := pr.body
    state := pr.state
    user := pr.user
    created_at := pr.created_at
    updated_at := pr.updated_at
    merged_at := pr.merged_at
    closed_at := pr.closed_at
    base := pr.base
    head := pr.head
    url := pr.html_url
    mergeable := pr.mergeable
    merged := pr.merged
    draft := pr.draft
    additions := pr.additions
    deletions := pr.deletions
    changed_files := pr.changed_files
    reviews := reviews
    approvals := (reviews.filter (fun r => r.state == "APPROVED")).length
    request_changes := (reviews.filter (fun r => r.state == "CHANGES_REQUESTED")).length }

/-- `getPullRequest` including its catch branch: an axios failure is
rethrown with the `Failed to fetch pull request: ` prefix. -/
def getPullRequestSvc (fetch : Except String (RawDetail × List Review)) :
    Except String PRDetail :=
  match fetch with
  | .ok p => .ok (getPullRequest p.1 p.2)
  | .error e => .error ("Failed to fetch pull request: " ++ e)

/-- `getRepositories` projection target. -/
structure Repo where
  id : Nat
  name : String
  full_name : String
  description : String
  isPrivate : Bool
  updated_at : String
  language : String
  stars : Nat
  forks : Nat

/-! ## The issue-tracker adapter (jiraService.js) -/

/-- `generateJQL`: AND-joined conditions from whichever optional
parameters are present, defaulting to recency ordering. -/
def generateJQL (params : Params) : String :=
  let conditions : List String :=
    (if jsTruthyStr params.project then
       ["project = \"" ++ params.project.getD "" ++ "\""] else []) ++
    (if jsTruthyStr params.status then
       ["status = \"" ++ params.status.getD "" ++ "\""] else []) ++
    (if jsTruthyStr params.assignee then
       ["assignee = \"" ++ params.assignee.getD "" ++ "\""] else []) ++
    (if jsTruthyStr params.user then
       ["(text ~ \"" ++ params.user.getD "" ++ "\" OR assignee = \"" ++
        params.user.getD "" ++ "\" OR reporter = \"" ++ params.user.getD "" ++ "\")"]
     else []) ++
    (if jsTruthyStr params.text then
       ["text ~ \"" ++ params.text.getD "" ++ "\""] else [])
  if conditions.isEmpty then "ORDER BY updated DESC"
  else jsJoin " AND " conditions ++ " ORDER BY updated DESC"

/-! ## The document adapter (documentService.js): CSV conversion -/

/-- A spreadsheet cell as the export code receives it: the rows handed to
`convertToCSV` come from the CSV/Excel parsers, whose cells are JS
scalars. -/
inductive Cell where
  | str (s : String)
  | num (n : Int)
  | boolV (b : Bool)
  | nullV
  | undef

/-- A parsed row: an ordered JS object with scalar fields. -/
abbrev CSVRecord := List (String × Cell)

/-- JS property read `row[header]`: absent keys give `undefined`. -/
def jsLookup (row : CSVRecord) (k : String) : Cell :=
  match row.find? (fun p => p.1 == k) with
  | some p => p.2
  | none => Cell.undef

/-- `value.replace(/"/g, '""')`. -/
def escQuotes : List Char → List Char
  | [] => []
  | c :: t => if c == '"' then '"' :: '"' :: escQuotes t else c :: escQuotes t

/-- One cell of `convertToCSV`: strings containing a comma or quote are
quote-escaped; otherwise `value || ''` stringified by `join` (so every
falsy scalar renders as the empty string). -/
def renderCell : Cell → String
  | .str s =>
    if jsIncludes s "," || jsIncludes s "\"" then
      "\"" ++ String.mk (escQuotes s.data) ++ "\""
    else if s == "" then "" else s
  | .num n => if n == 0 then "" else toString n
  | .boolV b => if b then "true" else ""
  | .nullV => ""
  | .undef => ""

/-- One data row of `convertToCSV`: the first record's keys looked up in
`row` and joined with commas. -/
def renderLine (headers : List String) (row : CSVRecord) : String :=
  jsJoin "," (headers.map (fun h => renderCell (jsLookup row h)))

/-- The `csvRows` array built by `convertToCSV`: the header row (the
first record's keys, unescaped) followed by one rendered line per
record. -/
def convertToCSVRows (data : List CSVRecord) : List String :=
  match data with
  | [] => []
  | r0 :: _ =>
    let headers := r0.map Prod.fst
    jsJoin "," headers :: data.map (renderLine headers)

def convertToCSV (data : List CSVRecord) : String :=
  if data.isEmpty then "" else jsJoin "\n" (convertToCSVRows data)

/-! ## The document adapter: CSV parsing (csv-parser collaborator)

`parseCSV` pipes the file through the `csv-parser` stream.  The stream's
grammar is embedded as a character-level state machine: comma-separated
cells, newline-separated records, double-quoted cells opened at a cell
boundary with `""` escaping (quoted cells may contain newlines), the
first record taken as the header list, and a final empty segment after
the last newline not emitted as a record. -/

inductive PMode where
  | fld
  | quoted
  | qclose
deriving DecidableEq

structure PState where
  mode : PMode
  cell : List Char
  row : List String
  rows : List (List String)

def flushCell (st : PState) : PState :=
  { st with mode := .fld, cell := [], row := String.mk st.cell.reverse :: st.row }

def flushRow (st : PState) : PState :=
  { st with mode := .fld, cell := [], row := []
            rows := (String.mk st.cell.reverse :: st.row).reverse :: st.rows }

def stepCSV (st : PState) (c : Char) : PState :=
  match st.mode with
  | .fld =>
    if c == ',' then flushCell st
    else if c == '\n' then flushRow st
    else if c == '"' && st.cell.isEmpty then { st with mode := .quoted }
    else { st with cell := c :: st.cell }
  | .quoted =>
    if c == '"' then { st with mode := .qclose }
    else { st with cell := c :: st.cell }
  | .qclose =>
    if c == '"' then { st with mode := .quoted, cell := '"' :: st.cell }
    else if c == ',' then flushCell st
    else if c == '\n' then flushRow st
    else { st with mode := .fld, cell := c :: st.cell }

def initPState : PState := ⟨.fld, [], [], []⟩

def finishCSV (st : PState) : List (List String) :=
  if st.mode = .fld ∧ st.cell = [] ∧ st.row = [] then st.rows.reverse
  else ((String.mk st.cell.reverse :: st.row).reverse :: st.rows).reverse

def runParse (content : String) : List (List String) :=
  if content == "" then [] else finishCSV (content.data.foldl stepCSV initPState)

structure ParsedDoc where
  headers : List String
  rowCount : Nat
  rows : List (List String)

/-- `parseCSV`: the first parsed record is the `headers` event payload,
the remaining records are the data rows, `rowCount` their number. -/
def parseCSV (content : String) : ParsedDoc :=
  match runParse content with
  | [] => { headers := [], rowCount := 0, rows := [] }
  | h :: rs => { headers := h, rowCount := rs.length, rows := rs }

/-! ## The route layer (routes/query.js)

Every awaited collaborator call is a field of `Oracles` (network or
filesystem outcome as `Except String α`; payloads the routes never
inspect stay opaque as `JsVal`).  Each handler returns the evidence it
produced together with the ordered list of collaborator calls it made,
so that "no provider call is made" and "exactly one attempt" are
statable. -/

/-- `getAvailableFiles` projection target; `lastModified` is the mtime
in epoch milliseconds (what the sort comparator subtracts). -/
structure DocFile where
  filename : String
  size : Nat
  lastModified : Int
  type : String

structure ExportDescriptor where
  filename : String
  path : String
  size : Nat

/-- `analyzeDocument` result: the parsed rows (consumed by the export
branch), the rest of the analysis payload opaque, and the `export`
property attached afterwards by the route. -/
structure DocAnalysisRes where
  data : List CSVRecord
  info : JsVal
  exportDesc : Option ExportDescriptor := none

inductive GEntry (α : Type) where
  | ok (v : α)
  | err (message : String)

structure AvailableFiles where
  available_files : List DocFile

/-- The multi-source envelope built by `handleGeneralQuery`: one entry
per provider. -/
structure GeneralResult where
  github : GEntry (List Repo)
  jira : GEntry JsVal
  documents : GEntry AvailableFiles

/-- The union of evidence shapes the four handlers return. -/
inductive Evidence where
  | agg (a : AggregatePRs)
  | ghData (v : JsVal)
  | prDetail (p : PRDetail)
  | prList (l : List PRRecord)
  | repoList (l : List Repo)
  | jiraData (v : JsVal)
  | docGuidance (message suggestion : String)
  | docAnalysis (d : DocAnalysisRes)
  | multi (g : GeneralResult)
  | notRecognized (a : Analysis)
  | errEvidence (message : String) (queryType : Option String) (parameters : Option Params)

/-- One collaborator invocation, recorded in order. -/
inductive Call where
  | aiAnalyzeQuery (q : String)
  | aiGenerateSummary
  | ghMergedWithoutApproval
  | ghReviewedByUser (user : String)
  | ghWaitingForReview
  | ghMergedLastWeek
  | ghGetPullRequest (owner repo prNumber : String)
  | ghGetPullRequests
  | ghGetRepositories
  | jGetIssue (key : String)
  | jSearchAccessIssues (user : String)
  | jSearchIssues (jql : String) (maxResults : Nat)
  | docGetAvailableFiles
  | docAnalyzeDocument (filename : String)
  | docExportToCSV (filename : String)
  | docExportToExcel (filename : String)
deriving DecidableEq

/-- Outcomes of every collaborator call the routes can make. -/
structure Oracles where
  analyzeQuery : String → Analysis
  generateSummary : Evidence → String → String
  mergedWithoutApproval : Except String AggregatePRs
  reviewedByUser : String → Except String JsVal
  waitingForReview : Except String JsVal
  mergedLastWeek : Except String JsVal
  getPullRequest : String → String → String → Except String PRDetail
  pullRequestsDefault : Except String (List PRRecord)
  repositories : Except String (List Repo)
  jiraIssue : String → Except String JsVal
  jiraAccessSearch : String → Except String JsVal
  jiraSearch : String → Nat → Except String JsVal
  availableFiles : Except String (List DocFile)
  analyzeDocument : String → Except String DocAnalysisRes
  exportToCSV : List CSVRecord → String → Except String ExportDescriptor
  exportToExcel : List CSVRecord → String → Except String ExportDescriptor

/-- The catch of `handleGitHubQuery`: a thrown service error becomes
error evidence carrying the message and parameters. -/
def ghCatch (r : Except String Evidence) (params : Params) : Evidence :=
  match r with
  | .ok e => e
  | .error m => .errEvidence m (some "github") (some params)

def handleGitHubQuery (o : Oracles) (analysis : Analysis) : Evidence × List Call :=
  let params := analysis.parameters
  let query := jsToLower analysis.intent
  if jsIncludes query "merged without approval" || jsIncludes query "no approval" then
    (ghCatch (Except.map Evidence.agg o.mergedWithoutApproval) params,
     [Call.ghMergedWithoutApproval])
  else if jsIncludes query "reviewed by" && jsTruthyStr params.user then
    let u := params.user.getD ""
    (ghCatch (Except.map Evidence.ghData (o.reviewedByUser u)) params,
     [Call.ghReviewedByUser u])
  else if jsIncludes query "waiting for review" || jsIncludes query "24 hours" then
    (ghCatch (Except.map Evidence.ghData o.waitingForReview) params,
     [Call.ghWaitingForReview])
  else if jsIncludes query "last 7 days" || jsIncludes query "last week" then
    (ghCatch (Except.map Evidence.ghData o.mergedLastWeek) params,
     [Call.ghMergedLastWeek])
  else if jsTruthyStr params.prNumber && jsTruthyStr params.repository then
    let parts := (params.repository.getD "").splitOn "/"
    let owner := parts.getD 0 "undefined"
    let repo := parts.getD 1 "undefined"
    let n := params.prNumber.getD ""
    (ghCatch (Except.map Evidence.prDetail (o.getPullRequest owner repo n)) params,
     [Call.ghGetPullRequest owner repo n])
  else if jsTruthyStr params.prNumber then
    let n := params.prNumber.getD ""
    (ghCatch (Except.map Evidence.prDetail
        (o.getPullRequest "shambhavi-123" "sprinto-bot" n)) params,
     [Call.ghGetPullRequest "shambhavi-123" "sprinto-bot" n])
  else if jsIncludes query "pull request" || jsIncludes query "last" && jsIncludes query "pull" then
    (ghCatch (Except.map Evidence.prList o.pullRequestsDefault) params,
     [Call.ghGetPullRequests])
  else
    (ghCatch (Except.map Evidence.repoList o.repositories) params,
     [Call.ghGetRepositories])

def jiraCatch (r : Except String Evidence) (params : Params) : Evidence :=
  match r with
  | .ok e => e
  | .error m => .errEvidence m (some "jira") (some params)

def handleJiraQuery (o : Oracles) (analysis : Analysis) : Evidence × List Call :=
  let params := analysis.parameters
  if jsTruthyStr params.issueKey then
    let k := params.issueKey.getD ""
    (jiraCatch (Except.map Evidence.jiraData (o.jiraIssue k)) params, [Call.jGetIssue k])
  else if jsTruthyStr params.user then
    let u := params.user.getD ""
    (jiraCatch (Except.map Evidence.jiraData (o.jiraAccessSearch u)) params,
     [Call.jSearchAccessIssues u])
  else
    let jql := generateJQL params
    (jiraCatch (Except.map Evidence.jiraData (o.jiraSearch jql 50)) params,
     [Call.jSearchIssues jql 50])

/-- `files.sort((a, b) => new Date(b.lastModified) - new Date(a.lastModified))[0]`:
the head of a stable descending sort is the first file with maximal
`lastModified`. -/
def mostRecentFile (f : DocFile) (rest : List DocFile) : DocFile :=
  rest.foldl (fun best g => if best.lastModified < g.lastModified then g else best) f

def handleDocumentQuery (o : Oracles) (analysis : Analysis) : Evidence × List Call :=
  match o.availableFiles with
  | .error m => (.errEvidence m (some "document") none, [Call.docGetAvailableFiles])
  | .ok files =>
    match files with
    | [] =>
      (.docGuidance "No documents available for analysis"
        "Upload CSV or Excel files using the /api/documents/upload endpoint",
       [Call.docGetAvailableFiles])
    | f :: rest =>
      let mostRecent := mostRecentFile f rest
      match o.analyzeDocument mostRecent.filename with
      | .error m =>
        (.errEvidence m (some "document") none,
         [Call.docGetAvailableFiles, Call.docAnalyzeDocument mostRecent.filename])
      | .ok analysisResult =>
        if jsTruthyStr analysis.parameters.exportFormat then
          if analysis.parameters.exportFormat.getD "" == "excel" then
            match o.exportToExcel analysisResult.data "evidence_export" with
            | .error m =>
              (.errEvidence m (some "document") none,
               [Call.docGetAvailableFiles, Call.docAnalyzeDocument mostRecent.filename,
                Call.docExportToExcel "evidence_export"])
            | .ok desc =>
              (.docAnalysis { analysisResult with exportDesc := some desc },
               [Call.docGetAvailableFiles, Call.docAnalyzeDocument mostRecent.filename,
                Call.docExportToExcel "evidence_export"])
          else
            match o.exportToCSV analysisResult.data "evidence_export" with
            | .error m =>
              (.errEvidence m (some "document") none,
               [Call.docGetAvailableFiles, Call.docAnalyzeDocument mostRecent.filename,
                Call.docExportToCSV "evidence_export"])
            | .ok desc =>
              (.docAnalysis { analysisResult with exportDesc := some desc },
               [Call.docGetAvailableFiles, Call.docAnalyzeDocument mostRecent.filename,
                Call.docExportToCSV "evidence_export"])
        else
          (.docAnalysis analysisResult,
           [Call.docGetAvailableFiles, Call.docAnalyzeDocument mostRecent.filename])

def gentry {α : Type} : Except String α → GEntry α
  | .ok v => .ok v
  | .error m => .err m

/-- `handleGeneralQuery`: fan out to the three providers, each failure
boxed locally into its own entry. -/
def handleGeneralQuery (o : Oracles) : Evidence × List Call :=
  let githubEntry := gentry o.repositories
  let jiraEntry := gentry (o.jiraSearch "ORDER BY updated DESC" 10)
  let documentsEntry :=
    match o.availableFiles with
    | .ok files => GEntry.ok { available_files := files }
    | .error m => GEntry.err m
  (.multi { github := githubEntry, jira := jiraEntry, documents := documentsEntry },
   [Call.ghGetRepositories, Call.jSearchIssues "ORDER BY updated DESC" 10,
    Call.docGetAvailableFiles])

structure RouteResponse where
  status : Nat
  error : Option String := none
  query : Option String := none
  analysis : Option Analysis := none
  evidence : Option Evidence := none
  summary : Option String := none

/-- `router.post('/')`: validate the body's `query` field, classify,
dispatch on `analysis.queryType`, summarize. -/
def processQuery (o : Oracles) (query : JsVal) : RouteResponse × List Call :=
  if jsFalsy query || !(jsTypeof query == "string") then
    ({ status := 400, error := some "Query is required and must be a string" }, [])
  else
    let qs := asString query
    let analysis := o.analyzeQuery qs
    let routed : Evidence × List Call :=
      if analysis.queryType == "github" then handleGitHubQuery o analysis
      else if analysis.queryType == "jira" then handleJiraQuery o analysis
      else if analysis.queryType == "document" then handleDocumentQuery o analysis
      else if analysis.queryType == "general" then handleGeneralQuery o
      else (.notRecognized analysis, [])
    let summary := o.generateSummary routed.1 analysis.intent
    ({ status := 200, query := some qs, analysis := some analysis,
       evidence := some routed.1, summary := some summary },
     Call.aiAnalyzeQuery qs :: (routed.2 ++ [Call.aiGenerateSummary]))

/-! ## Shared concrete fixtures for witnesses and counterexamples -/

def dummyAnalysis : Analysis :=
  { queryType := "general", intent := "", parameters := {}, source := "multiple"
    action := "multi_source_search", confidence := 0.5 }

def dummyOracles : Oracles :=
  { analyzeQuery := fun _ => dummyAnalysis
    generateSummary := fun _ _ => ""
    mergedWithoutApproval := .error "unavailable"
    reviewedByUser := fun _ => .error "unavailable"
    waitingForReview := .error "unavailable"
    mergedLastWeek := .error "unavailable"
    getPullRequest := fun _ _ _ => .error "unavailable"
    pullRequestsDefault := .error "unavailable"
    repositories := .error "unavailable"
    jiraIssue := fun _ => .error "unavailable"
    jiraAccessSearch := fun _ => .error "unavailable"
    jiraSearch := fun _ _ => .error "unavailable"
    availableFiles := .error "unavailable"
    analyzeDocument := fun _ => .error "unavailable"
    exportToCSV := fun _ _ => .error "unavailable"
    exportToExcel := fun _ _ => .error "unavailable" }

/-! ## Claim C1 -/

/-- Claim C1: a request whose `query` field is absent (`undefined`) or
not a string is rejected with the 400 client error before the classifier
or any provider adapter runs: the call log is empty. -/
theorem processQuery_rejects_nonstring (o : Oracles) (query : JsVal)
    (h : jsTypeof query ≠ "string") :
    (processQuery o query).1.status = 400 ∧ (processQuery o query).2 = [] := by
  have hc : (jsFalsy query || !(jsTypeof query == "string")) = true := by
    cases query <;> simp_all [jsTypeof, jsFalsy]
  simp [processQuery, hc]

/-- Witness for C1 at a numeric body and at an absent field. -/
theorem processQuery_rejects_nonstring_witness :
    jsTypeof (JsVal.num 5) ≠ "string" ∧
    (processQuery dummyOracles (JsVal.num 5)).1.status = 400 ∧
    (processQuery dummyOracles (JsVal.num 5)).2 = [] ∧
    (processQuery dummyOracles JsVal.undef).1.status = 400 ∧
    (processQuery dummyOracles JsVal.undef).2 = [] := by
  refine ⟨by decide, ?_, ?_, ?_, ?_⟩
  · exact (processQuery_rejects_nonstring dummyOracles (JsVal.num 5) (by decide)).1
  · exact (processQuery_rejects_nonstring dummyOracles (JsVal.num 5) (by decide)).2
  · exact (processQuery_rejects_nonstring dummyOracles JsVal.undef (by decide)).1
  · exact (processQuery_rejects_nonstring dummyOracles JsVal.undef (by decide)).2

/-! ## Claim C2 -/

def recA : PRRecord :=
  { number := 1, title := "A", state := "closed", user := "alice"
    created_at := "2024-01-01T00:00:00Z", updated_at := "2024-01-02T00:00:00Z"
    merged_at := some "2024-01-02T00:00:00Z", url := "https://example.com/1"
    base := "main", head := "feat-a", draft := false, merged := true
    reviews := [], approvals := 0, request_changes := 0 }

def recB : PRRecord :=
  { number := 2, title := "B", state := "closed", user := "bob"
    created_at := "2024-01-03T00:00:00Z", updated_at := "2024-01-04T00:00:00Z"
    merged_at := some "2024-01-04T00:00:00Z", url := "https://example.com/2"
    base := "main", head := "feat-b", draft := false, merged := true
    reviews :=
      [{ id := 11, user := "carol", state := "APPROVED"
         submitted_at := "2024-01-03T12:00:00Z", body := "lgtm" },
       { id := 12, user := "dave", state := "APPROVED"
         submitted_at := "2024-01-03T13:00:00Z", body := "ok" }]
    approvals := 2, request_changes := 0 }

/-- Claim C2: the merged-without-approval aggregate lists exactly the
closed records with `merged` and zero approvals (projected to the
evidence shape) and counts them; in the A/B scenario the list is exactly
the projection of A with count 1. -/
theorem mergedWithoutApproval_spec :
    (∀ prs : List PRRecord,
      (getPRsMergedWithoutApproval prs).count =
        (prs.filter (fun pr => pr.merged && pr.approvals == 0)).length ∧
      ∀ x, x ∈ (getPRsMergedWithoutApproval prs).prs ↔
        ∃ pr ∈ prs, pr.merged = true ∧ pr.approvals = 0 ∧ x = mergedPRProjection pr) ∧
    getPRsMergedWithoutApproval [recA, recB] =
      { count := 1, prs := [mergedPRProjection recA] } := by
  refine ⟨fun prs => ⟨rfl, fun x => ?_⟩, rfl⟩
  simp only [getPRsMergedWithoutApproval, List.mem_map, List.mem_filter,
    Bool.and_eq_true, beq_iff_eq]
  constructor
  · rintro ⟨pr, ⟨hmem, hm, ha⟩, hx⟩
    exact ⟨pr, hmem, hm, ha, hx.symm⟩
  · rintro ⟨pr, hmem, hm, ha, hx⟩
    exact ⟨pr, ⟨hmem, hm, ha⟩, hx.symm⟩

/-! ## Claim C6 -/

/-- Claim C6: the general-query envelope has one entry per provider, a
throwing provider's entry is an error record carrying the thrown
message, and each other provider's entry still holds its successful
result. -/
theorem general_fault_isolation (o : Oracles) (r : GeneralResult)
    (hr : (handleGeneralQuery o).1 = Evidence.multi r) :
    (∀ v, o.repositories = Except.ok v → r.github = GEntry.ok v) ∧
    (∀ m, o.repositories = Except.error m → r.github = GEntry.err m) ∧
    (∀ v, o.jiraSearch "ORDER BY updated DESC" 10 = Except.ok v → r.jira = GEntry.ok v) ∧
    (∀ m, o.jiraSearch "ORDER BY updated DESC" 10 = Except.error m → r.jira = GEntry.err m) ∧
    (∀ fs, o.availableFiles = Except.ok fs →
      r.documents = GEntry.ok { available_files := fs }) ∧
    (∀ m, o.availableFiles = Except.error m → r.documents = GEntry.err m) := by
  simp only [handleGeneralQuery, Evidence.multi.injEq] at hr
  subst hr
  refine ⟨?_, ?_, ?_, ?_, ?_, ?_⟩ <;> intro a ha <;> simp [gentry, ha]

def repoX : Repo :=
  { id := 7, name := "sprinto-bot", full_name := "shambhavi-123/sprinto-bot"
    description := "bot", isPrivate := false, updated_at := "2024-01-01T00:00:00Z"
    language := "JavaScript", stars := 1, forks := 0 }

def oC6 : Oracles :=
  { dummyOracles with
    repositories := .ok [repoX]
    jiraSearch := fun _ _ => .error "boom"
    availableFiles := .ok [] }

def rC6 : GeneralResult :=
  { github := GEntry.ok [repoX], jira := GEntry.err "boom"
    documents := GEntry.ok { available_files := [] } }

/-- Witness for C6: the issue tracker throws while the other two
providers succeed; the envelope keeps both successful sections. -/
theorem general_fault_isolation_witness :
    (handleGeneralQuery oC6).1 = Evidence.multi rC6 ∧
    rC6.jira = GEntry.err "boom" ∧
    rC6.github = GEntry.ok [repoX] ∧
    rC6.documents = GEntry.ok { available_files := [] } := by
  have h := general_fault_isolation oC6 rC6 rfl
  exact ⟨rfl, h.2.2.2.1 "boom" rfl, h.1 [repoX] rfl, h.2.2.2.2.1 [] rfl⟩

/-! ## Claim C7 -/

/-- Count of reviews in any state other than approved or
changes-requested. -/
def otherStates (reviews : List Review) : Nat :=
  (reviews.filter
    (fun r => !(r.state == "APPROVED") && !(r.state == "CHANGES_REQUESTED"))).length

theorem reviews_partition (reviews : List Review) :
    (reviews.filter (fun r => r.state == "APPROVED")).length +
      (reviews.filter (fun r => r.state == "CHANGES_REQUESTED")).length +
      otherStates reviews = reviews.length := by
  induction reviews with
  | nil => rfl
  | cons r t ih =>
    simp only [otherStates, List.filter_cons] at ih ⊢
    by_cases h1 : r.state = "APPROVED"
    · simp only [h1]
      simp only [List.length_cons]
      simp
      omega
    · by_cases h2 : r.state = "CHANGES_REQUESTED"
      · simp only [h2]
        simp
        omega
      · have e1 : (r.state == "APPROVED") = false := by simp [h1]
        have e2 : (r.state == "CHANGES_REQUESTED") = false := by simp [h2]
        simp only [e1, e2]
        simp
        omega

/-- Claim C7: on every record built by the list fetch (including the
degraded catch branch) and by the single fetch, `approvals` counts the
APPROVED reviews, `request_changes` counts the CHANGES_REQUESTED
reviews, and the two counts plus the other-state reviews add up to the
record's total reviews. -/
theorem review_counts_invariant (raw : RawPR) (rv : Except String (List Review))
    (rawD : RawDetail) (reviews : List Review) :
    ((enrichPR raw rv).approvals =
        ((enrichPR raw rv).reviews.filter (fun r => r.state == "APPROVED")).length ∧
      (enrichPR raw rv).request_changes =
        ((enrichPR raw rv).reviews.filter (fun r => r.state == "CHANGES_REQUESTED")).length ∧
      (enrichPR raw rv).approvals + (enrichPR raw rv).request_changes +
        otherStates (enrichPR raw rv).reviews = (enrichPR raw rv).reviews.length) ∧
    ((getPullRequest rawD reviews).approvals =
        ((getPullRequest rawD reviews).reviews.filter
          (fun r => r.state == "APPROVED")).length ∧
      (getPullRequest rawD reviews).request_changes =
        ((getPullRequest rawD reviews).reviews.filter
          (fun r => r.state == "CHANGES_REQUESTED")).length ∧
      (getPullRequest rawD reviews).approvals + (getPullRequest rawD reviews).request_changes +
        otherStates (getPullRequest rawD reviews).reviews =
        (getPullRequest rawD reviews).reviews.length) := by
  refine ⟨?_, rfl, rfl, reviews_partition reviews⟩
  cases rv with
  | ok v => exact ⟨rfl, rfl, reviews_partition v⟩
  | error e => exact ⟨rfl, rfl, rfl⟩

/-! ## Claim C10 -/

/-- The JS-falsy scalar cells: `0`, `false`, `null`, `undefined`, `''`. -/
def jsFalsyCell : Cell → Bool
  | .str s => s == ""
  | .num n => n == 0
  | .boolV b => !b
  | .nullV => true
  | .undef => true

/-- Claim C10: the export's header row is exactly the first record's
keys, every data row renders only those keys (fields appearing only in
later records are omitted), and every JS-falsy cell value renders as the
empty string. -/
theorem convertToCSV_headers_and_falsy :
    (∀ (r0 : CSVRecord) (rest : List CSVRecord),
      (convertToCSVRows (r0 :: rest)).head? = some (jsJoin "," (r0.map Prod.fst)) ∧
      (convertToCSVRows (r0 :: rest)).tail =
        (r0 :: rest).map (renderLine (r0.map Prod.fst))) ∧
    (∀ v : Cell, jsFalsyCell v = true → renderCell v = "") := by
  refine ⟨fun r0 rest => ⟨rfl, rfl⟩, fun v hv => ?_⟩
  cases v with
  | str s =>
    have hs : s = "" := by simpa [jsFalsyCell] using hv
    subst hs
    decide
  | num n =>
    have hn : n = 0 := by simpa [jsFalsyCell] using hv
    subst hn
    decide
  | boolV b =>
    have hb : b = false := by simpa [jsFalsyCell] using hv
    subst hb
    decide
  | nullV => rfl
  | undef => rfl

/-- Witness for C10's falsy-cell clause at concrete cells. -/
theorem convertToCSV_falsy_witness :
    jsFalsyCell (Cell.num 0) = true ∧ renderCell (Cell.num 0) = "" ∧
    jsFalsyCell (Cell.boolV false) = true ∧ renderCell (Cell.boolV false) = "" ∧
    jsFalsyCell Cell.nullV = true ∧ renderCell Cell.nullV = "" :=
  ⟨by decide, convertToCSV_headers_and_falsy.2 (Cell.num 0) (by decide),
   by decide, convertToCSV_headers_and_falsy.2 (Cell.boolV false) (by decide),
   by decide, convertToCSV_headers_and_falsy.2 Cell.nullV (by decide)⟩

/-! ## Claim C4 -/

def ghKeywords : List String := ["pr", "pull request", "github", "merge"]

def jiraKeywords : List String := ["jira", "ticket", "issue", "access"]

def docKeywords : List String := ["csv", "excel", "file", "document"]

/-- A keyword family matches when any of its terms occurs in the
(lowercased) query. -/
def hitsFamily (q : String) (fam : List String) : Bool :=
  fam.any (fun k => jsIncludes q k)

theorem hitsFamily_gh (q : String) :
    hitsFamily q ghKeywords =
      (jsIncludes q "pr" || jsIncludes q "pull request" ||
       jsIncludes q "github" || jsIncludes q "merge") := by
  simp [hitsFamily, ghKeywords, Bool.or_assoc]

theorem hitsFamily_jira (q : String) :
    hitsFamily q jiraKeywords =
      (jsIncludes q "jira" || jsIncludes q "ticket" ||
       jsIncludes q "issue" || jsIncludes q "access") := by
  simp [hitsFamily, jiraKeywords, Bool.or_assoc]

theorem hitsFamily_doc (q : String) :
    hitsFamily q docKeywords =
      (jsIncludes q "csv" || jsIncludes q "excel" ||
       jsIncludes q "file" || jsIncludes q "document") := by
  simp [hitsFamily, docKeywords, Bool.or_assoc]

/-- Claim C4: the fallback classifier tests the keyword families in the
fixed order source-control, issue-tracker, document, with the first
match winning.  A source-control hit classifies as github even when an
issue-tracker term also occurs; no hit at all yields `general` with
confidence 0.5. -/
theorem fallback_priority (userQuery : String) :
    (hitsFamily (jsToLower userQuery) ghKeywords = true →
      (fallbackAnalysis userQuery).queryType = "github") ∧
    (hitsFamily (jsToLower userQuery) ghKeywords = false →
      hitsFamily (jsToLower userQuery) jiraKeywords = true →
      (fallbackAnalysis userQuery).queryType = "jira") ∧
    (hitsFamily (jsToLower userQuery) ghKeywords = false →
      hitsFamily (jsToLower userQuery) jiraKeywords = false →
      hitsFamily (jsToLower userQuery) docKeywords = true →
      (fallbackAnalysis userQuery).queryType = "document") ∧
    (hitsFamily (jsToLower userQuery) ghKeywords = false →
      hitsFamily (jsToLower userQuery) jiraKeywords = false →
      hitsFamily (jsToLower userQuery) docKeywords = false →
      (fallbackAnalysis userQuery).queryType = "general" ∧
      (fallbackAnalysis userQuery).confidence = 0.5) := by
  rw [hitsFamily_gh, hitsFamily_jira, hitsFamily_doc]
  simp only [fallbackAnalysis]
  refine ⟨fun h1 => ?_, fun h1 h2 => ?_, fun h1 h2 h3 => ?_, fun h1 h2 h3 => ?_⟩
  · simp [h1]
  · simp [h1, h2]
  · simp [h1, h2, h3]
  · simp [h1, h2, h3]

/-- Witness for C4: a query with both a source-control and an
issue-tracker term classifies as github; a query hitting no family is
general with confidence 0.5. -/
theorem fallback_priority_witness :
    hitsFamily (jsToLower "please merge the ticket") ghKeywords = true ∧
    hitsFamily (jsToLower "please merge the ticket") jiraKeywords = true ∧
    (fallbackAnalysis "please merge the ticket").queryType = "github" ∧
    hitsFamily (jsToLower "hello world") ghKeywords = false ∧
    (fallbackAnalysis "hello world").queryType = "general" ∧
    (fallbackAnalysis "hello world").confidence = 0.5 := by
  refine ⟨by decide, by decide,
    (fallback_priority "please merge the ticket").1 (by decide),
    by decide, ?_, ?_⟩
  · exact ((fallback_priority "hello world").2.2.2 (by decide) (by decide) (by decide)).1
  · exact ((fallback_priority "hello world").2.2.2 (by decide) (by decide) (by decide)).2

/-! ## Claim C3 -/

theorem char_isUpper_iff (c : Char) :
    c.isUpper = true ↔ 65 ≤ c.toNat ∧ c.toNat ≤ 90 := by
  unfold Char.isUpper
  rw [Bool.and_eq_true, decide_eq_true_eq, decide_eq_true_eq]
  have h1 : ((65 : UInt32) ≤ c.val) ↔ 65 ≤ c.toNat := by
    rw [UInt32.le_def, BitVec.le_def]
    exact Iff.rfl
  have h2 : (c.val ≤ (90 : UInt32)) ↔ c.toNat ≤ 90 := by
    rw [UInt32.le_def, BitVec.le_def]
    exact Iff.rfl
  rw [ge_iff_le, h1, h2]

/-- Lowercasing never yields an ASCII capital. -/
theorem isUpper_toLower (c : Char) : (Char.toLower c).isUpper = false := by
  show (if c.toNat ≥ 65 ∧ c.toNat ≤ 90 then Char.ofNat (c.toNat + 32) else c).isUpper = false
  split
  · next h =>
    have hv : (Char.toNat c + 32).isValidChar := Or.inl (by omega)
    have ht : (Char.ofNat (Char.toNat c + 32)).toNat = Char.toNat c + 32 := by
      rw [Char.ofNat, dif_pos hv]
      rfl
    rw [Bool.eq_false_iff]
    intro hup
    have := (char_isUpper_iff _).mp hup
    rw [ht] at this
    omega
  · next h =>
    rw [Bool.eq_false_iff]
    intro hup
    exact h ((char_isUpper_iff c).mp hup)

theorem findKey_none (l : List Char) (h : ∀ c ∈ l, c.isUpper = false) :
    findKey l = none := by
  induction l with
  | nil => rfl
  | cons c rest ih =>
    have hc := h c (List.mem_cons_self c rest)
    have hmatch : matchKeyAt (c :: rest) = none := by
      simp [matchKeyAt, List.takeWhile_cons, hc]
    simp only [findKey, hmatch]
    exact ih (fun x hx => h x (List.mem_cons_of_mem _ hx))

/-- Claim C3 (amended): the deterministic fallback classifier never sets
`parameters.issueKey` — extraction runs only in the issue-tracker branch
and on the lowercased query, which the case-sensitive `[A-Z]+-[0-9]+`
pattern can never match — while `extractJiraParams` applied to a
case-preserving string does extract the first such token. -/
theorem fallback_never_extracts_issueKey :
    (∀ userQuery : String, (fallbackAnalysis userQuery).parameters.issueKey = none) ∧
    (extractJiraParams "Ticket ABC-123 blocked").issueKey = some "ABC-123" := by
  constructor
  · intro q
    have hkey : findKey (jsToLower q).data = none := by
      apply findKey_none
      intro c hc
      simp only [jsToLower, List.mem_map] at hc
      obtain ⟨c', _, rfl⟩ := hc
      exact isUpper_toLower c'
    simp only [fallbackAnalysis]
    split
    · rfl
    · split
      · simp [extractJiraParams, hkey]
      · split
        · rfl
        · rfl
  · rfl

/-- Counterexample for C3 as stated: this query contains the
ticket-key-shaped token `ABC-123`, yet the classifier's output carries
no `issueKey` at all. -/
theorem classifier_issueKey_counterexample :
    jsIncludes "ticket ABC-123" "ABC-123" = true ∧
    (fallbackAnalysis "ticket ABC-123").queryType = "jira" ∧
    (fallbackAnalysis "ticket ABC-123").parameters.issueKey ≠ some "ABC-123" := by
  refine ⟨by decide, by decide, by decide⟩

/-! ## Claim C8 -/

/-- Claim C8 (amended): the deterministic fallback summary says "Found N
items" only for an array (`RecordList`); every other object — including
an `AggregateResult` and a `SingleRecord` — gets the field-count
message, and non-objects get the generic acknowledgement. -/
theorem fallbackSummary_spec :
    (∀ (items : List JsVal) (intent : String),
      fallbackSummary (.arr items) intent =
        "Found " ++ toString items.length ++ " items matching your query: \"" ++
          intent ++ "\". Data has been retrieved and is ready for export.") ∧
    (∀ (fields : List (String × JsVal)) (intent : String),
      fallbackSummary (.obj fields) intent =
        "Retrieved evidence with " ++ toString fields.length ++ " data points: " ++
          jsJoin ", " (fields.map Prod.fst) ++ ". Query: \"" ++ intent ++ "\"") ∧
    (∀ (s intent : String),
      fallbackSummary (.str s) intent =
        "Evidence retrieved for query: \"" ++ intent ++ "\". Data is available for review.") ∧
    (∀ (n : Int) (intent : String),
      fallbackSummary (.num n) intent =
        "Evidence retrieved for query: \"" ++ intent ++ "\". Data is available for review.") :=
  ⟨fun _ _ => rfl, fun _ _ => rfl, fun _ _ => rfl, fun _ _ => rfl⟩

/-- An `AggregateResult` evidence value with one item. -/
def aggExample : JsVal :=
  .obj [("count", .num 1), ("prs", .arr [.obj [("pr_id", .num 9), ("title", .str "A")]])]

/-- Counterexample for C8 as stated: an `AggregateResult` holding one
item is summarized with the object field-count message, not with
"Found 1 items matching ...". -/
theorem fallbackSummary_counterexample :
    fallbackSummary aggExample "merged without approval" =
      "Retrieved evidence with 2 data points: count, prs. Query: \"merged without approval\"" ∧
    jsIncludes (fallbackSummary aggExample "merged without approval") "Found" = false := by
  constructor
  · rfl
  · decide

/-! ## Claim C5 -/

/-- Claim C5 (amended): when only a record identifier is present and no
textual branch matches, the router makes exactly one fetch attempt, on
the single default repository `shambhavi-123/sprinto-bot`; a hit returns
the record and a miss becomes error evidence carrying the thrown
message.  There is no multi-repository fallback scan. -/
theorem prNumber_single_default_attempt (o : Oracles) (a : Analysis)
    (g1 : (jsIncludes (jsToLower a.intent) "merged without approval" ||
           jsIncludes (jsToLower a.intent) "no approval") = false)
    (g2 : (jsIncludes (jsToLower a.intent) "reviewed by" &&
           jsTruthyStr a.parameters.user) = false)
    (g3 : (jsIncludes (jsToLower a.intent) "waiting for review" ||
           jsIncludes (jsToLower a.intent) "24 hours") = false)
    (g4 : (jsIncludes (jsToLower a.intent) "last 7 days" ||
           jsIncludes (jsToLower a.intent) "last week") = false)
    (h5 : jsTruthyStr a.parameters.prNumber = true)
    (h6 : jsTruthyStr a.parameters.repository = false) :
    (handleGitHubQuery o a).2 =
      [Call.ghGetPullRequest "shambhavi-123" "sprinto-bot" (a.parameters.prNumber.getD "")] ∧
    (∀ d, o.getPullRequest "shambhavi-123" "sprinto-bot" (a.parameters.prNumber.getD "") =
        Except.ok d → (handleGitHubQuery o a).1 = Evidence.prDetail d) ∧
    (∀ m, o.getPullRequest "shambhavi-123" "sprinto-bot" (a.parameters.prNumber.getD "") =
        Except.error m →
      (handleGitHubQuery o a).1 = Evidence.errEvidence m (some "github") (some a.parameters)) := by
  have hmain : handleGitHubQuery o a =
      (ghCatch (Except.map Evidence.prDetail
          (o.getPullRequest "shambhavi-123" "sprinto-bot" (a.parameters.prNumber.getD "")))
        a.parameters,
       [Call.ghGetPullRequest "shambhavi-123" "sprinto-bot" (a.parameters.prNumber.getD "")]) := by
    unfold handleGitHubQuery
    simp [g1, g2, g3, g4, h5, h6]
  refine ⟨by rw [hmain], fun d hd => ?_, fun m hm => ?_⟩
  · rw [hmain]
    simp [hd, ghCatch, Except.map]
  · rw [hmain]
    simp [hm, ghCatch, Except.map]

def aC5 : Analysis :=
  { queryType := "github", intent := "get PR details"
    parameters := { prNumber := some "456" }, source := "github"
    action := "fetch_github_data", confidence := 0.7 }

/-- Witness for C5's amended claim: with an unavailable backend the
single default-repository attempt is made and its thrown message becomes
the error evidence. -/
theorem prNumber_single_default_attempt_witness :
    (handleGitHubQuery dummyOracles aC5).2 =
      [Call.ghGetPullRequest "shambhavi-123" "sprinto-bot" "456"] ∧
    (handleGitHubQuery dummyOracles aC5).1 =
      Evidence.errEvidence "unavailable" (some "github") (some aC5.parameters) := by
  have h := prNumber_single_default_attempt dummyOracles aC5
    (by decide) (by decide) (by decide) (by decide) (by decide) (by decide)
  exact ⟨h.1, h.2.2 "unavailable" rfl⟩

def oC5 : Oracles :=
  { dummyOracles with
    getPullRequest := fun _ _ _ => getPullRequestSvc (.error "Not Found") }

/-- Counterexample for C5 as stated: on a default-repository miss the
router neither scans further repositories (exactly one attempt is
logged) nor produces the message "record not found in accessible
repositories" — the evidence carries the service's rethrown axios
message instead. -/
theorem multiRepo_fallback_counterexample :
    (handleGitHubQuery oC5 aC5).1 =
      Evidence.errEvidence "Failed to fetch pull request: Not Found"
        (some "github") (some aC5.parameters) ∧
    (handleGitHubQuery oC5 aC5).2 =
      [Call.ghGetPullRequest "shambhavi-123" "sprinto-bot" "456"] ∧
    (handleGitHubQuery oC5 aC5).2.length = 1 ∧
    "Failed to fetch pull request: Not Found" ≠
      "record not found in accessible repositories" := by
  refine ⟨rfl, rfl, rfl, by decide⟩

/-! ## Claim C9

Infrastructure relating `convertToCSV` and the parser model: cells whose
rendered text is either free of separator characters or properly
quote-escaped are consumed atomically by the state machine, so each
exported line contributes exactly one parsed record. -/

def plainChar (c : Char) : Bool := !(c == ',' || c == '"' || c == '\n')

def plainStr (s : String) : Bool := s.data.all plainChar

/-- Scanner for the remainder of a quoted cell after the opening quote:
`true` means inside the quotes, `false` means just after a quote
character; accepts exactly escaped bodies followed by the closing
quote. -/
def okBody : Bool → List Char → Bool
  | true, [] => false
  | true, c :: t => if c == '"' then okBody false t else okBody true t
  | false, [] => true
  | false, c :: t => if c == '"' then okBody true t else false

/-- A rendered cell the parser consumes atomically: plain text without
separator characters, or a quoted cell. -/
def okCell (w : String) : Bool :=
  plainStr w ||
    (match w.data with
     | c :: t => c == '"' && okBody true t
     | [] => false)

/-- A line the parser consumes as one record: a comma-join of parseable
cells. -/
def lineOK (line : String) : Prop :=
  ∃ cells, cells ≠ [] ∧ (∀ c ∈ cells, okCell c = true) ∧ line = jsJoin "," cells

def modeB : Bool → PMode
  | true => .quoted
  | false => .qclose

theorem mk_data (w : String) : String.mk w.data = w := rfl

theorem plainChar_spec (c : Char) (h : plainChar c = true) :
    (c == ',') = false ∧ (c == '"') = false ∧ (c == '\n') = false := by
  simp only [plainChar, Bool.not_eq_true', Bool.or_eq_false_iff] at h
  exact ⟨h.1.1, h.1.2, h.2⟩

theorem foldl_plain (l : List Char) (hl : l.all plainChar = true)
    (cell : List Char) (row : List String) (rows : List (List String)) :
    List.foldl stepCSV ⟨.fld, cell, row, rows⟩ l = ⟨.fld, l.reverse ++ cell, row, rows⟩ := by
  induction l generalizing cell with
  | nil => rfl
  | cons c t ih =>
    obtain ⟨hc, ht⟩ : plainChar c = true ∧ t.all plainChar = true := by simpa using hl
    obtain ⟨h1, h2, h3⟩ := plainChar_spec c hc
    have hstep : stepCSV ⟨.fld, cell, row, rows⟩ c = ⟨.fld, c :: cell, row, rows⟩ := by
      simp [stepCSV, h1, h2, h3]
    rw [List.foldl_cons, hstep, ih ht]
    simp [List.append_assoc]

theorem foldl_quoted (l : List Char) : ∀ (b : Bool), okBody b l = true →
    ∀ (cell : List Char) (row : List String) (rows : List (List String)),
    ∃ cell', List.foldl stepCSV ⟨modeB b, cell, row, rows⟩ l = ⟨.qclose, cell', row, rows⟩ := by
  induction l with
  | nil =>
    intro b hb cell row rows
    cases b with
    | false => exact ⟨cell, rfl⟩
    | true => simp [okBody] at hb
  | cons c t ih =>
    intro b hb cell row rows
    cases b with
    | true =>
      cases hc : (c == '"') with
      | true =>
        have hb' : okBody false t = true := by simpa [okBody, hc] using hb
        have hstep : stepCSV ⟨modeB true, cell, row, rows⟩ c = ⟨modeB false, cell, row, rows⟩ := by
          simp [stepCSV, modeB, hc]
        rw [List.foldl_cons, hstep]
        exact ih false hb' cell row rows
      | false =>
        have hb' : okBody true t = true := by simpa [okBody, hc] using hb
        have hstep : stepCSV ⟨modeB true, cell, row, rows⟩ c = ⟨modeB true, c :: cell, row, rows⟩ := by
          simp [stepCSV, modeB, hc]
        rw [List.foldl_cons, hstep]
        exact ih true hb' (c :: cell) row rows
    | false =>
      cases hc : (c == '"') with
      | true =>
        have hb' : okBody true t = true := by simpa [okBody, hc] using hb
        have hstep : stepCSV ⟨modeB false, cell, row, rows⟩ c = ⟨modeB true, '"' :: cell, row, rows⟩ := by
          have : c = '"' := by simpa using hc
          simp [stepCSV, modeB, this]
        rw [List.foldl_cons, hstep]
        exact ih true hb' ('"' :: cell) row rows
      | false =>
        simp [okBody, hc] at hb

theorem string_eq_empty_of_data (w : String) (h : w.data = []) : w = "" := by
  have := congrArg String.mk h
  rw [mk_data] at this
  exact this

theorem foldl_cell (w : String) (hw : okCell w = true)
    (row : List String) (rows : List (List String)) :
    ∃ m' cell', List.foldl stepCSV ⟨.fld, [], row, rows⟩ w.data = ⟨m', cell', row, rows⟩ ∧
      m' ≠ PMode.quoted ∧ ((m' = PMode.fld ∧ cell' = []) → w = "") := by
  rw [okCell, Bool.or_eq_true] at hw
  cases hw with
  | inl hp =>
    refine ⟨.fld, w.data.reverse, ?_, by simp, ?_⟩
    · simpa using foldl_plain w.data hp [] row rows
    · rintro ⟨-, hcell⟩
      exact string_eq_empty_of_data w (by simpa using hcell)
  | inr hq =>
    cases hd : w.data with
    | nil => rw [hd] at hq; simp at hq
    | cons c t =>
      rw [hd] at hq
      obtain ⟨hc, hb⟩ : (c == '"') = true ∧ okBody true t = true := by simpa using hq
      have hceq : c = '"' := by simpa using hc
      subst hceq
      have hstep : stepCSV ⟨.fld, [], row, rows⟩ '"' = ⟨.quoted, [], row, rows⟩ := by
        simp [stepCSV]
      obtain ⟨cell', hfold⟩ := foldl_quoted t true hb [] row rows
      refine ⟨.qclose, cell', ?_, by simp, by simp⟩
      rw [List.foldl_cons, hstep]
      exact hfold

theorem foldl_line : ∀ (cells : List String), cells ≠ [] →
    (∀ c ∈ cells, okCell c = true) →
    ∀ (row : List String) (rows : List (List String)),
    ∃ m' cell' row', List.foldl stepCSV ⟨.fld, [], row, rows⟩ (jsJoin "," cells).data =
        ⟨m', cell', row', rows⟩ ∧ m' ≠ PMode.quoted ∧
      ((m' = PMode.fld ∧ cell' = [] ∧ row' = []) → (row = [] ∧ cells = [""])) := by
  intro cells
  induction cells with
  | nil => intro h; exact absurd rfl h
  | cons w cs ih =>
    intro _ hok row rows
    cases cs with
    | nil =>
      obtain ⟨m', cell', hfold, hmq, hempty⟩ := foldl_cell w (hok w (by simp)) row rows
      refine ⟨m', cell', row, ?_, hmq, ?_⟩
      · simpa [jsJoin] using hfold
      · rintro ⟨h1, h2, h3⟩
        exact ⟨h3, by rw [hempty ⟨h1, h2⟩]⟩
    | cons y rest =>
      obtain ⟨m1, cell1, hfold1, hmq1, -⟩ := foldl_cell w (hok w (by simp)) row rows
      have hdata : (jsJoin "," (w :: y :: rest)).data =
          w.data ++ ',' :: (jsJoin "," (y :: rest)).data := by
        simp [jsJoin]
      have hcomma : stepCSV ⟨m1, cell1, row, rows⟩ ',' =
          ⟨.fld, [], String.mk cell1.reverse :: row, rows⟩ := by
        cases m1 with
        | fld => simp [stepCSV, flushCell]
        | quoted => exact absurd rfl hmq1
        | qclose => simp [stepCSV, flushCell]
      obtain ⟨m', cell', row', hfold2, hmq2, hempty2⟩ :=
        ih (by simp) (fun c hc => hok c (List.mem_cons_of_mem _ hc))
          (String.mk cell1.reverse :: row) rows
      refine ⟨m', cell', row', ?_, hmq2, ?_⟩
      · rw [hdata, List.foldl_append, hfold1, List.foldl_cons, hcomma]
        exact hfold2
      · intro h
        obtain ⟨hr, -⟩ := hempty2 h
        exact absurd hr (by simp)

theorem foldl_line_plain : ∀ (ks : List String), ks ≠ [] →
    (∀ k ∈ ks, plainStr k = true) →
    ∀ (row : List String) (rows : List (List String)),
    ∃ cell' row', List.foldl stepCSV ⟨.fld, [], row, rows⟩ (jsJoin "," ks).data =
        ⟨.fld, cell', row', rows⟩ ∧
      (String.mk cell'.reverse :: row').reverse = row.reverse ++ ks := by
  intro ks
  induction ks with
  | nil => intro h; exact absurd rfl h
  | cons k cs ih =>
    intro _ hp row rows
    cases cs with
    | nil =>
      refine ⟨k.data.reverse, row, ?_, ?_⟩
      · have := foldl_plain k.data (hp k (by simp)) [] row rows
        simpa [jsJoin] using this
      · simp [mk_data]
    | cons y rest =>
      have hfold1 := foldl_plain k.data (hp k (by simp)) [] row rows
      have hdata : (jsJoin "," (k :: y :: rest)).data =
          k.data ++ ',' :: (jsJoin "," (y :: rest)).data := by
        simp [jsJoin]
      have hcomma : stepCSV ⟨.fld, k.data.reverse ++ [], row, rows⟩ ',' =
          ⟨.fld, [], k :: row, rows⟩ := by
        simp [stepCSV, flushCell, mk_data]
      obtain ⟨cell', row', hfold2, hpend⟩ :=
        ih (by simp) (fun c hc => hp c (List.mem_cons_of_mem _ hc)) (k :: row) rows
      refine ⟨cell', row', ?_, ?_⟩
      · rw [hdata, List.foldl_append, hfold1, List.foldl_cons, hcomma]
        exact hfold2
      · rw [hpend]
        simp [List.append_assoc]

theorem getLast?_map_cons {α β : Type} (f : α → β) : ∀ (a : α) (l : List α),
    ((a :: l).map f).getLast? = some (f (l.getLastD a)) := by
  intro a l
  induction l generalizing a with
  | nil => rfl
  | cons b t ih =>
    rw [List.map_cons, List.map_cons, List.getLast?_cons_cons, ← List.map_cons, ih b,
      List.getLastD_cons]

theorem okCell_of_plain (w : String) (h : plainStr w = true) : okCell w = true := by
  simp [okCell, h]

/-- A parsed line's pending record equals `ks` whenever the line is also
a comma-join of plain cells `ks` (used for the header line). -/
theorem pend_of_plain (l : String) (cells ks : List String)
    (hl : l = jsJoin "," cells) (hl2 : l = jsJoin "," ks)
    (hksne : ks ≠ []) (hksp : ∀ k ∈ ks, plainStr k = true)
    (m1 : PMode) (cell1 : List Char) (row1 : List String) (rows : List (List String))
    (hfold : List.foldl stepCSV ⟨.fld, [], [], rows⟩ (jsJoin "," cells).data =
      ⟨m1, cell1, row1, rows⟩) :
    (String.mk cell1.reverse :: row1).reverse = ks := by
  obtain ⟨cellP, rowP, hfoldP, hpend⟩ := foldl_line_plain ks hksne hksp [] rows
  have e : jsJoin "," cells = jsJoin "," ks := by rw [← hl, ← hl2]
  rw [e, hfoldP] at hfold
  injection hfold with h1 h2 h3 h4
  subst h2
  subst h3
  simpa using hpend

/-- Folding the whole document: safe lines each contribute exactly one
record, the final non-empty line is flushed at end of input, and a plain
header line parses back to its cells. -/
theorem foldl_doc : ∀ (ls : List String), ls ≠ [] → (∀ l ∈ ls, lineOK l) →
    (∀ s, ls.getLast? = some s → s ≠ "") →
    ∀ (rows : List (List String)),
    ∃ recs, recs.length = ls.length ∧
      finishCSV (List.foldl stepCSV ⟨.fld, [], [], rows⟩ (jsJoin "\n" ls).data) =
        rows.reverse ++ recs ∧
      (∀ ks, ks ≠ [] → (∀ k ∈ ks, plainStr k = true) →
        ls.head? = some (jsJoin "," ks) → recs.head? = some ks) := by
  intro ls
  induction ls with
  | nil => intro h; exact absurd rfl h
  | cons l ls' ih =>
    intro _ hok hlast rows
    cases ls' with
    | nil =>
      obtain ⟨cells, hcne, hcok, hl⟩ := hok l (by simp)
      have hlne : l ≠ "" := hlast l (by simp)
      obtain ⟨m', cell', row', hfold, hmq, hempty⟩ := foldl_line cells hcne hcok [] rows
      have hfold' : List.foldl stepCSV ⟨.fld, [], [], rows⟩ (jsJoin "\n" [l]).data =
          ⟨m', cell', row', rows⟩ := by
        rw [show jsJoin "\n" [l] = l from rfl, hl]
        exact hfold
      have hnot : ¬(m' = PMode.fld ∧ cell' = [] ∧ row' = []) := by
        rintro h
        obtain ⟨-, hcells⟩ := hempty h
        apply hlne
        rw [hl, hcells]
        rfl
      refine ⟨[(String.mk cell'.reverse :: row').reverse], by simp, ?_, ?_⟩
      · rw [hfold', finishCSV, if_neg hnot]
        simp
      · intro ks hksne hksp hhead
        have hl2 : l = jsJoin "," ks := by simpa using hhead
        have := pend_of_plain l cells ks hl hl2 hksne hksp m' cell' row' rows hfold
        simpa using this
    | cons l2 rest =>
      obtain ⟨cells, hcne, hcok, hl⟩ := hok l (by simp)
      obtain ⟨m1, cell1, row1, hfold1, hmq1, -⟩ := foldl_line cells hcne hcok [] rows
      have hfold1' : List.foldl stepCSV ⟨.fld, [], [], rows⟩ l.data = ⟨m1, cell1, row1, rows⟩ := by
        rw [hl]
        exact hfold1
      have hdata : (jsJoin "\n" (l :: l2 :: rest)).data =
          l.data ++ '\n' :: (jsJoin "\n" (l2 :: rest)).data := by
        simp [jsJoin]
      have hnl : stepCSV ⟨m1, cell1, row1, rows⟩ '\n' =
          ⟨.fld, [], [], (String.mk cell1.reverse :: row1).reverse :: rows⟩ := by
        cases m1 with
        | fld => simp [stepCSV, flushRow]
        | quoted => exact absurd rfl hmq1
        | qclose => simp [stepCSV, flushRow]
      obtain ⟨recs', hlen', hfin', -⟩ :=
        ih (by simp) (fun x hx => hok x (List.mem_cons_of_mem _ hx))
          (fun s hs => hlast s (by rw [List.getLast?_cons_cons]; exact hs))
          ((String.mk cell1.reverse :: row1).reverse :: rows)
      refine ⟨(String.mk cell1.reverse :: row1).reverse :: recs', by simpa using hlen', ?_, ?_⟩
      · rw [hdata, List.foldl_append, hfold1', List.foldl_cons, hnl, hfin']
        simp [List.append_assoc]
      · intro ks hksne hksp hhead
        have hl2 : l = jsJoin "," ks := by simpa using hhead
        have := pend_of_plain l cells ks hl hl2 hksne hksp m1 cell1 row1 rows hfold1
        simpa using this

theorem lineOK_renderLine (keys : List String) (row : CSVRecord) (hkne : keys ≠ [])
    (hc : ∀ h ∈ keys, okCell (renderCell (jsLookup row h)) = true) :
    lineOK (renderLine keys row) := by
  refine ⟨keys.map (fun h => renderCell (jsLookup row h)), by simpa using hkne, ?_, rfl⟩
  intro c hcmem
  obtain ⟨h, hh, rfl⟩ := List.mem_map.mp hcmem
  exact hc h hh

/-- Claim C9 (amended): exporting a non-empty record list and parsing
the export preserves the row count and reproduces the first record's
keys as the header set, provided the keys contain no separator
characters, every looked-up cell renders to a parseable cell (plain or
quoted — which excludes exactly the unquoted-newline cells the
counterexample exhibits), and the last record's rendered line is not
empty (an empty final line would be the file's trailing empty segment,
which the parser does not emit as a record). -/
theorem csv_roundtrip (r0 : CSVRecord) (rest : List CSVRecord)
    (hkeys : ∀ k ∈ r0.map Prod.fst, plainStr k = true)
    (hcells : ∀ row ∈ r0 :: rest, ∀ h ∈ r0.map Prod.fst,
      okCell (renderCell (jsLookup row h)) = true)
    (hlast : renderLine (r0.map Prod.fst) (rest.getLastD r0) ≠ "") :
    (parseCSV (convertToCSV (r0 :: rest))).headers = r0.map Prod.fst ∧
    (parseCSV (convertToCSV (r0 :: rest))).rowCount = (r0 :: rest).length := by
  have hkne : r0.map Prod.fst ≠ [] := by
    intro h
    apply hlast
    rw [renderLine, h]
    rfl
  have hrows : convertToCSVRows (r0 :: rest) =
      jsJoin "," (r0.map Prod.fst) :: (r0 :: rest).map (renderLine (r0.map Prod.fst)) := rfl
  have hcontent : convertToCSV (r0 :: rest) = jsJoin "\n" (convertToCSVRows (r0 :: rest)) := by
    simp [convertToCSV]
  have hlinesOK : ∀ l ∈ convertToCSVRows (r0 :: rest), lineOK l := by
    rw [hrows]
    intro l hlmem
    rcases List.mem_cons.mp hlmem with hhd | htl
    · exact ⟨r0.map Prod.fst, hkne,
        fun c hc => okCell_of_plain c (hkeys c hc), hhd⟩
    · obtain ⟨row, hrmem, rfl⟩ := List.mem_map.mp htl
      exact lineOK_renderLine _ row hkne (hcells row hrmem)
  have hlastOK : ∀ s, (convertToCSVRows (r0 :: rest)).getLast? = some s → s ≠ "" := by
    rw [hrows]
    intro s hs
    rw [show ((r0 :: rest).map (renderLine (r0.map Prod.fst))) =
        renderLine (r0.map Prod.fst) r0 :: rest.map (renderLine (r0.map Prod.fst)) from rfl,
      List.getLast?_cons_cons, ← List.map_cons, getLast?_map_cons] at hs
    have : s = renderLine (r0.map Prod.fst) (rest.getLastD r0) := by
      exact (Option.some.injEq _ _ ▸ hs).symm
    rw [this]
    exact hlast
  have hcontentne : convertToCSV (r0 :: rest) ≠ "" := by
    rw [hcontent, hrows]
    intro h
    have hdata := congrArg String.data h
    rw [show ((r0 :: rest).map (renderLine (r0.map Prod.fst))) =
        renderLine (r0.map Prod.fst) r0 :: rest.map (renderLine (r0.map Prod.fst)) from rfl] at hdata
    simp [jsJoin] at hdata
  obtain ⟨recs, hlen, hfin, hhead⟩ :=
    foldl_doc (convertToCSVRows (r0 :: rest)) (by rw [hrows]; simp) hlinesOK hlastOK []
  have hrun : runParse (convertToCSV (r0 :: rest)) = recs := by
    rw [runParse, if_neg (by simpa using hcontentne), hcontent]
    simpa using hfin
  have hheadks : recs.head? = some (r0.map Prod.fst) :=
    hhead (r0.map Prod.fst) hkne hkeys (by rw [hrows]; rfl)
  cases hrecs : recs with
  | nil => rw [hrecs] at hheadks; simp at hheadks
  | cons k rs =>
    rw [hrecs] at hheadks hlen
    have hk : k = r0.map Prod.fst := by simpa using hheadks
    have hlsLen : (convertToCSVRows (r0 :: rest)).length = rest.length + 2 := by
      rw [hrows]
      simp
    rw [hlsLen] at hlen
    constructor
    · rw [parseCSV, hrun, hrecs]
      exact hk
    · rw [parseCSV, hrun, hrecs]
      simp only [List.length_cons] at hlen ⊢
      omega

/-- A record list exercising quoting and falsy cells. -/
def roundtripData : List CSVRecord :=
  [[("name", Cell.str "laptop"), ("count", Cell.num 5)],
   [("name", Cell.str "a,b"), ("count", Cell.num 0)]]

/-- Witness for C9's amended claim on concrete data with a quoted cell
and a falsy cell. -/
theorem csv_roundtrip_witness :
    (parseCSV (convertToCSV roundtripData)).headers = ["name", "count"] ∧
    (parseCSV (convertToCSV roundtripData)).rowCount = 2 := by
  have h := csv_roundtrip
    [("name", Cell.str "laptop"), ("count", Cell.num 5)]
    [[("name", Cell.str "a,b"), ("count", Cell.num 0)]]
    (by decide) (by decide) (by decide)
  exact ⟨h.1, h.2⟩

/-- Counterexample for C9 as stated: a single record whose field value
contains a newline (and no comma or quote) is written unescaped, so the
export parses back with two data rows instead of one. -/
theorem csv_roundtrip_counterexample :
    convertToCSV [[("a", Cell.str "x\ny")]] = "a\nx\ny" ∧
    (parseCSV (convertToCSV [[("a", Cell.str "x\ny")]])).rowCount = 2 ∧
    [[("a", Cell.str "x\ny")]].length = 1 ∧
    (parseCSV (convertToCSV [[("a", Cell.str "x\ny")]])).rowCount ≠
      [[("a", Cell.str "x\ny")]].length := by
  refine ⟨rfl, by decide, rfl, by decide⟩

end EvidenceBot
